import Mathlib

/-!
Verification development for the VibeFoundry IDE frontend.

Each definition is a shallow embedding of a function from the repository
sources (the Script Runner panel, the remote terminal component, the
CodespaceSync panel and the auth utilities).  Time is modelled as `Nat`
milliseconds (the value of `Date.now()`); JavaScript's `x - y < k` tests on
timestamps agree with truncated `Nat` subtraction because a negative
difference and a clamped-to-zero difference fall on the same side of the
comparison.
-/

namespace VF

/-! ## Script Runner panel: missing-module detection
Source: ScriptRunner component (src/unnamed/part_000 lines 206-222 and
src/README.md lines 198-214), function `detectMissingModule`.
The JS regex is `ModuleNotFoundError: No module named ['"]([^'"]+)['"]`.
-/

/-- The character class of the regex quote positions: a single or double quote. -/
def isQuote (c : Char) : Bool := c = '\'' || c = '"'

/-- The literal part of the regex pattern, as a character list. -/
def moduleNotFoundLit : List Char := "ModuleNotFoundError: No module named ".data

/-- After the greedy capture `body`, the regex requires the next character to
be a closing quote, and the capture (`[^'"]+`) to be nonempty. -/
def matchClosing (body : List Char) : List Char → Option (List Char)
  | [] => none
  | q2 :: _ =>
    if isQuote q2 then
      if body.isEmpty then none else some body
    else none

/-- Match `['"]([^'"]+)['"]`: an opening quote, then the greedy run of
non-quote characters (the capture group), then a closing quote. -/
def matchQuoted : List Char → Option (List Char)
  | [] => none
  | q :: rest =>
    if isQuote q then
      matchClosing (rest.takeWhile (fun c => !isQuote c))
        (rest.drop ((rest.takeWhile (fun c => !isQuote c)).length))
    else none

/-- Match the regex at the head of `l`: the literal, then the quoted capture.
Returns the capture group. -/
def matchModuleAt (l : List Char) : Option (List Char) :=
  if l.take moduleNotFoundLit.length = moduleNotFoundLit then
    matchQuoted (l.drop moduleNotFoundLit.length)
  else none

/-- Leftmost match of the regex in `l` (JS `String.prototype.match` returns
the first match), yielding the capture group. -/
def findModuleMatch : List Char → Option (List Char)
  | [] => none
  | c :: rest =>
    match matchModuleAt (c :: rest) with
    | some cap => some cap
    | none => findModuleMatch rest

/-- Model of `match[1].split('.')[0]`: the characters of the capture before the first dot. -/
def topLevelComponent (l : List Char) : List Char :=
  l.takeWhile (fun c => c ≠ '.')

/-- The value of the JS expression `moduleMap[moduleName] || moduleName`:
either a string (an own table entry, or the literal name produced by the
`||` fallback), or a truthy value inherited from `Object.prototype`, which
the `||` passes through unchanged. -/
inductive ModuleMapResult
  | package (name : String)
  | protoValue (key : String)
deriving DecidableEq

/-- The property names of `Object.prototype`, every one of which is bound to
a truthy value (a function — or, for `__proto__`, the `Object.prototype`
object itself). -/
def objectProtoKeys : List String :=
  ["constructor", "hasOwnProperty", "isPrototypeOf", "propertyIsEnumerable",
    "toLocaleString", "toString", "valueOf", "__proto__", "__defineGetter__",
    "__defineSetter__", "__lookupGetter__", "__lookupSetter__"]

/-- The lookup `moduleMap[moduleName] || moduleName`.  `moduleMap` is a plain
object literal, so the bracket lookup traverses the prototype chain: the
four own entries map to their pip package names; a name that is an
`Object.prototype` property finds the inherited truthy value, so the `||`
fallback never fires; any other name is `undefined` in the object and the
fallback yields the literal name. -/
def moduleMap (name : String) : ModuleMapResult :=
  if name = "PIL" then ModuleMapResult.package "pillow"
  else if name = "cv2" then ModuleMapResult.package "opencv-python"
  else if name = "sklearn" then ModuleMapResult.package "scikit-learn"
  else if name = "yaml" then ModuleMapResult.package "pyyaml"
  else if name ∈ objectProtoKeys then ModuleMapResult.protoValue name
  else ModuleMapResult.package name

/-- Model of `detectMissingModule(stderr)`: `none` models JS `null`/absent stderr, and
the empty string is falsy, so both return `null`. -/
def detectMissingModule (stderr : Option String) : Option ModuleMapResult :=
  match stderr with
  | none => none
  | some s =>
    if s = "" then none
    else
      match findModuleMatch s.data with
      | none => none
      | some cap => some (moduleMap (String.mk (topLevelComponent cap)))

/-- Specification-level description of "the stderr contains a match of the
pattern": some position decomposes into the literal, an opening quote, a
nonempty quote-free body and a closing quote. -/
def IsModuleChunk (l : List Char) (body : List Char) : Prop :=
  ∃ q1 q2 rest, isQuote q1 = true ∧ isQuote q2 = true ∧ body ≠ [] ∧
    (∀ c ∈ body, isQuote c = false) ∧
    l = moduleNotFoundLit ++ q1 :: (body ++ q2 :: rest)

/-- The stderr text contains a match of the pattern somewhere. -/
def HasModuleMatch (l : List Char) : Prop :=
  ∃ n body, IsModuleChunk (l.drop n) body

theorem takeWhile_drop_decomp (p : Char → Bool) (l : List Char) :
    l = l.takeWhile p ++ l.drop (l.takeWhile p).length := by
  induction l with
  | nil => rfl
  | cons c cs ih =>
    by_cases h : p c
    · simpa [List.takeWhile_cons, h] using ih
    · simp [List.takeWhile_cons, h]

theorem mem_takeWhile_true (p : Char → Bool) (l : List Char) :
    ∀ c ∈ l.takeWhile p, p c = true := by
  induction l with
  | nil => intro c hc; simp at hc
  | cons a as ih =>
    intro c hc
    by_cases h : p a
    · rw [List.takeWhile_cons, if_pos h] at hc
      rcases List.mem_cons.mp hc with hc | hc
      · exact hc ▸ h
      · exact ih c hc
    · rw [List.takeWhile_cons, if_neg h] at hc
      simp at hc

theorem takeWhile_all_append (p : Char → Bool) (xs : List Char) (q : Char)
    (ys : List Char) (hall : ∀ c ∈ xs, p c = true) (hq : p q = false) :
    (xs ++ q :: ys).takeWhile p = xs := by
  induction xs with
  | nil => simp [List.takeWhile_cons, hq]
  | cons a as ih =>
    have ha : p a = true := hall a (List.mem_cons_self a as)
    simp only [List.cons_append, List.takeWhile_cons, ha, if_true]
    rw [ih (fun c hc => hall c (List.mem_cons_of_mem a hc))]

theorem matchModuleAt_isSome_iff (l : List Char) :
    (matchModuleAt l).isSome = true ↔ ∃ body, IsModuleChunk l body := by
  constructor
  · intro h
    unfold matchModuleAt at h
    by_cases htake : l.take moduleNotFoundLit.length = moduleNotFoundLit
    · rw [if_pos htake] at h
      rcases hdrop : l.drop moduleNotFoundLit.length with _ | ⟨q, rest⟩
      · rw [hdrop] at h; simp [matchQuoted] at h
      · rw [hdrop] at h
        simp only [matchQuoted] at h
        by_cases hq : isQuote q = true
        · rw [if_pos hq] at h
          rcases hdrop2 : rest.drop ((rest.takeWhile (fun c => !isQuote c)).length)
            with _ | ⟨q2, tl⟩
          · rw [hdrop2] at h; simp [matchClosing] at h
          · rw [hdrop2] at h
            simp only [matchClosing] at h
            by_cases hq2 : isQuote q2 = true
            · rw [if_pos hq2] at h
              by_cases hne : (rest.takeWhile (fun c => !isQuote c)).isEmpty = true
              · rw [if_pos hne] at h; simp at h
              · refine ⟨rest.takeWhile (fun c => !isQuote c), q, q2, tl, hq, hq2, ?_, ?_, ?_⟩
                · intro hnil
                  rw [hnil] at hne
                  exact hne rfl
                · intro c hc
                  have := mem_takeWhile_true (fun c => !isQuote c) rest c hc
                  simpa using this
                · have h1 : l = l.take moduleNotFoundLit.length ++
                      l.drop moduleNotFoundLit.length := (List.take_append_drop _ l).symm
                  rw [htake, hdrop] at h1
                  have h2 : rest = rest.takeWhile (fun c => !isQuote c) ++
                      rest.drop ((rest.takeWhile (fun c => !isQuote c)).length) :=
                    takeWhile_drop_decomp _ rest
                  rw [hdrop2] at h2
                  rw [h1]
                  exact congrArg (fun z => moduleNotFoundLit ++ q :: z) h2
            · rw [if_neg hq2] at h; simp at h
        · rw [if_neg hq] at h; simp at h
    · rw [if_neg htake] at h; simp at h
  · rintro ⟨body, q1, q2, rest, hq1, hq2, hne, hall, hl⟩
    have htake : l.take moduleNotFoundLit.length = moduleNotFoundLit := by
      rw [hl]; exact List.take_left _ _
    have hdrop : l.drop moduleNotFoundLit.length = q1 :: (body ++ q2 :: rest) := by
      rw [hl]; exact List.drop_left _ _
    have htw : (body ++ q2 :: rest).takeWhile (fun c => !isQuote c) = body := by
      apply takeWhile_all_append
      · intro c hc; simp [hall c hc]
      · simp [hq2]
    have hdrop2 : (body ++ q2 :: rest).drop body.length = q2 :: rest :=
      List.drop_left _ _
    unfold matchModuleAt
    rw [if_pos htake, hdrop]
    simp only [matchQuoted]
    rw [if_pos hq1, htw, hdrop2]
    simp only [matchClosing]
    rw [if_pos hq2, if_neg (by simpa using hne)]
    rfl

theorem findModuleMatch_isSome_iff (l : List Char) :
    (findModuleMatch l).isSome = true ↔ ∃ n, (matchModuleAt (l.drop n)).isSome = true := by
  induction l with
  | nil =>
    constructor
    · intro h; simp [findModuleMatch] at h
    · rintro ⟨n, hn⟩
      rw [List.drop_nil] at hn
      have : matchModuleAt [] = none := by
        unfold matchModuleAt
        rw [if_neg]
        intro h
        have : moduleNotFoundLit = [] := by simpa using h.symm
        simp [moduleNotFoundLit] at this
      rw [this] at hn; simp at hn
  | cons c cs ih =>
    rcases h : matchModuleAt (c :: cs) with _ | cap
    · constructor
      · intro hf
        unfold findModuleMatch at hf
        rw [h] at hf
        rcases ih.mp hf with ⟨n, hn⟩
        exact ⟨n + 1, by simpa using hn⟩
      · rintro ⟨n, hn⟩
        rcases n with _ | m
        · rw [List.drop_zero, h] at hn; simp at hn
        · unfold findModuleMatch
          rw [h]
          exact ih.mpr ⟨m, by simpa using hn⟩
    · constructor
      · intro _; exact ⟨0, by rw [List.drop_zero, h]; rfl⟩
      · intro _
        unfold findModuleMatch
        rw [h]
        rfl

theorem hasModuleMatch_iff (l : List Char) :
    HasModuleMatch l ↔ (findModuleMatch l).isSome = true := by
  rw [findModuleMatch_isSome_iff]
  constructor
  · rintro ⟨n, body, hb⟩
    exact ⟨n, (matchModuleAt_isSome_iff _).mpr ⟨body, hb⟩⟩
  · rintro ⟨n, hn⟩
    rcases (matchModuleAt_isSome_iff _).mp hn with ⟨body, hb⟩
    exact ⟨n, body, hb⟩

/-- C1 counterexample: for stderr reporting a missing module named
`toString` — a dotless name outside the fixed table — the detector does not
return the literal top-level name: the object-literal lookup finds the
truthy inherited `Object.prototype.toString` and the `||` fallback never
fires, so the code returns that inherited function instead. -/
theorem C1_missing_module_counterexample :
    detectMissingModule (some "ModuleNotFoundError: No module named 'toString'")
      = some (ModuleMapResult.protoValue "toString") ∧
    ModuleMapResult.protoValue "toString" ≠ ModuleMapResult.package "toString" := by
  exact ⟨by decide, by decide⟩

/-- C1 amended: for every stderr containing a match of
`ModuleNotFoundError: No module named '<x.y.z>'`, the detector returns the
top-level component `x` of the leftmost capture looked up via
`moduleMap[x] || x`: the fixed table maps `PIL→pillow, cv2→opencv-python,
sklearn→scikit-learn, yaml→pyyaml`; a top-level name outside the table that
is an `Object.prototype` property name yields the truthy inherited value
instead of the literal name; every other unmapped name yields the literal
top-level name; with no such match (including empty or absent stderr) it
detects nothing. -/
theorem C1_missing_module_detection (s : String) :
    detectMissingModule none = none ∧
    (HasModuleMatch s.data ↔ (findModuleMatch s.data).isSome = true) ∧
    detectMissingModule (some s) =
      (findModuleMatch s.data).map
        (fun cap => moduleMap (String.mk (topLevelComponent cap))) ∧
    (moduleMap "PIL" = ModuleMapResult.package "pillow" ∧
      moduleMap "cv2" = ModuleMapResult.package "opencv-python" ∧
      moduleMap "sklearn" = ModuleMapResult.package "scikit-learn" ∧
      moduleMap "yaml" = ModuleMapResult.package "pyyaml") ∧
    (∀ n : String, n ≠ "PIL" → n ≠ "cv2" → n ≠ "sklearn" → n ≠ "yaml" →
      n ∉ objectProtoKeys → moduleMap n = ModuleMapResult.package n) ∧
    (∀ n : String, n ≠ "PIL" → n ≠ "cv2" → n ≠ "sklearn" → n ≠ "yaml" →
      n ∈ objectProtoKeys → moduleMap n = ModuleMapResult.protoValue n) ∧
    (∀ x y : List Char, '.' ∉ x → topLevelComponent (x ++ '.' :: y) = x) := by
  refine ⟨rfl, hasModuleMatch_iff s.data, ?_, ⟨rfl, rfl, rfl, rfl⟩, ?_, ?_, ?_⟩
  · by_cases hs : s = ""
    · subst hs
      simp [detectMissingModule, findModuleMatch]
    · simp only [detectMissingModule, if_neg hs]
      rcases findModuleMatch s.data with _ | cap <;> rfl
  · intro n h1 h2 h3 h4 h5
    simp [moduleMap, h1, h2, h3, h4, h5]
  · intro n h1 h2 h3 h4 h5
    simp [moduleMap, h1, h2, h3, h4, h5]
  · intro x y hx
    apply takeWhile_all_append
    · intro c hc
      simp only [decide_eq_true_eq]
      intro hcdot
      exact hx (hcdot ▸ hc)
    · simp

/-- Witness for the amended C1 at concrete stderr texts: a mapped dotted
name, and a literal fallback for a name outside both the table and
`Object.prototype`. -/
theorem C1_missing_module_detection_witness :
    detectMissingModule
      (some "ModuleNotFoundError: No module named 'PIL.Image'")
      = some (ModuleMapResult.package "pillow") ∧
    moduleMap "numpy" = ModuleMapResult.package "numpy" := by
  have h := C1_missing_module_detection "ModuleNotFoundError: No module named 'PIL.Image'"
  constructor
  · rw [h.2.2.1]
    decide
  · exact h.2.2.2.2.1 "numpy" (by decide) (by decide) (by decide) (by decide) (by decide)

/-! ## Script Runner panel: the run queue
Source: ScriptRunner component, `queueScripts`/`processQueue`
(src/unnamed/part_000 lines 285-348, src/README.md lines 277-328).
`scriptQueueRef` is the FIFO queue, `isRunningRef` the reentrancy guard of
the single drain loop, and `results` collects one entry per executed script
in completion order.  JavaScript is single-threaded: the only suspension
point of `processQueue` is the `await` of one running script, so a trace is
a sequence of atomic events — a `submit` (a call to `queueScripts` from any
trigger) or a `finish` (the awaited script completing, after which the loop
immediately shifts the next queued script or stops). -/

/-- The enqueue step of `queueScripts`: append each batch path to the queue
unless it is already queued. -/
def enqueue (q : List String) (batch : List String) : List String :=
  batch.foldl (fun acc p => if p ∈ acc then acc else acc ++ [p]) q

/-- The subsequence of `batch` that `enqueue` actually appends: paths not
already queued, first occurrences only, in batch order. -/
def newPaths (q : List String) : List String → List String
  | [] => []
  | p :: rest => if p ∈ q then newPaths q rest else p :: newPaths (q ++ [p]) rest

structure RunState where
  busy : Bool
  current : Option String
  queue : List String
  results : List String
deriving DecidableEq

inductive RunEv
  | submit (batch : List String)
  | finish
deriving DecidableEq

/-- One atomic event of the run-queue protocol.  `submit` transcribes
`queueScripts` followed by the synchronous head of `processQueue` (the guard
`isRunningRef.current || queue empty` returns early; otherwise the loop
starts and shifts the first script).  `finish` transcribes the loop body
resuming after `await runSingleScript`: push the result, then either shift
the next script or clear `isRunningRef`. -/
def runStep (s : RunState) : RunEv → RunState
  | .submit batch =>
    let q := enqueue s.queue batch
    if s.busy then { s with queue := q }
    else
      match q with
      | [] => { s with queue := [] }
      | p :: rest => { busy := true, current := some p, queue := rest, results := s.results }
  | .finish =>
    match s.current with
    | none => s
    | some p =>
      match s.queue with
      | [] => { busy := false, current := none, queue := [], results := s.results ++ [p] }
      | p2 :: rest =>
        { busy := true, current := some p2, queue := rest, results := s.results ++ [p] }

def runTrace (s : RunState) (evs : List RunEv) : RunState := evs.foldl runStep s

theorem enqueue_eq_append (batch : List String) :
    ∀ q : List String, enqueue q batch = q ++ newPaths q batch := by
  induction batch with
  | nil => intro q; simp [enqueue, newPaths]
  | cons p rest ih =>
    intro q
    by_cases hp : p ∈ q
    · have h1 : enqueue q (p :: rest) = enqueue q rest := by
        simp [enqueue, hp]
      rw [h1, ih q, newPaths, if_pos hp]
    · have h1 : enqueue q (p :: rest) = enqueue (q ++ [p]) rest := by
        simp [enqueue, hp]
      rw [h1, ih (q ++ [p]), newPaths, if_neg hp, List.append_assoc]
      rfl

theorem drain_results (q : List String) :
    ∀ (c : String) (r : List String) (bsy : Bool),
    (runTrace ⟨bsy, some c, q, r⟩ (List.replicate (q.length + 1) RunEv.finish)).results
        = r ++ c :: q ∧
    (runTrace ⟨bsy, some c, q, r⟩ (List.replicate (q.length + 1) RunEv.finish)).current
        = none ∧
    (runTrace ⟨bsy, some c, q, r⟩ (List.replicate (q.length + 1) RunEv.finish)).queue
        = [] := by
  induction q with
  | nil =>
    intro c r bsy
    simp [runTrace, runStep, List.replicate]
  | cons p2 rest ih =>
    intro c r bsy
    have hrep : List.replicate ((p2 :: rest).length + 1) RunEv.finish
        = RunEv.finish :: List.replicate (rest.length + 1) RunEv.finish := by
      simp [List.replicate_succ]
    rw [hrep]
    have hstep : runTrace ⟨bsy, some c, p2 :: rest, r⟩
        (RunEv.finish :: List.replicate (rest.length + 1) RunEv.finish)
        = runTrace ⟨true, some p2, rest, r ++ [c]⟩
            (List.replicate (rest.length + 1) RunEv.finish) := rfl
    rw [hstep]
    rcases ih p2 (r ++ [c]) true with ⟨h1, h2, h3⟩
    exact ⟨by rw [h1]; simp, h2, h3⟩

/-- C2: the frontend run queue is a single FIFO.  A submitted batch is
appended (first occurrences of not-yet-queued paths, in batch order) behind
whatever is already queued; a submission never changes the currently
executing script (at most one executes at a time — the reentrancy guard
returns early while `busy`); and draining the queue executes/collects
results exactly in queue order: the current script, then the queued ones in
FIFO order. -/
theorem C2_run_queue_serial_fifo (s : RunState) (b : List String) (n : Nat)
    (hb : s.busy = s.current.isSome)
    (hn : n = s.current.toList.length + s.queue.length)
    (hinv : s.current = none → s.queue = []) :
    enqueue s.queue b = s.queue ++ newPaths s.queue b ∧
    (s.current.isSome = true → (runStep s (RunEv.submit b)).current = s.current) ∧
    (runTrace s (List.replicate n RunEv.finish)).results
        = s.results ++ s.current.toList ++ s.queue ∧
    (runTrace s (List.replicate n RunEv.finish)).current = none := by
  refine ⟨enqueue_eq_append b s.queue, ?_, ?_⟩
  · intro hc
    have hbusy : s.busy = true := by rw [hb, hc]
    simp [runStep, hbusy]
  · rcases hc : s.current with _ | c
    · have hq : s.queue = [] := hinv hc
      have hn0 : n = 0 := by rw [hn, hc, hq]; rfl
      subst hn0
      rcases s with ⟨bsy, cur, que, res⟩
      simp only at hc hq
      subst hc; subst hq
      simp [runTrace, List.replicate]
    · have hn1 : n = s.queue.length + 1 := by
        rw [hn, hc]; simp [Option.toList]; omega
      subst hn1
      rcases s with ⟨bsy, cur, que, res⟩
      simp only at hc
      subst hc
      rcases drain_results que c res bsy with ⟨h1, h2, _⟩
      constructor
      · rw [h1]; simp [Option.toList]
      · exact h2

/-- Witness for C2 at a concrete state: one script running, one queued, and a
batch containing an already-queued path. -/
theorem C2_run_queue_serial_fifo_witness :
    enqueue ["b"] ["b", "c"] = ["b"] ++ newPaths ["b"] ["b", "c"] ∧
    (runStep ⟨true, some "a", ["b"], []⟩ (RunEv.submit ["b", "c"])).current = some "a" ∧
    (runTrace ⟨true, some "a", ["b"], []⟩ (List.replicate 2 RunEv.finish)).results
        = ["a", "b"] ∧
    (runTrace ⟨true, some "a", ["b"], []⟩ (List.replicate 2 RunEv.finish)).current
        = none := by
  have h := C2_run_queue_serial_fifo ⟨true, some "a", ["b"], []⟩ ["b", "c"] 2
    (by decide) (by decide) (by intro h; simp at h)
  exact ⟨h.1, h.2.1 rfl, h.2.2.1, h.2.2.2⟩

/-! ## Script Runner panel: change-event debounce and pending scripts
Source: the `scriptChangeEvent` effect of the ScriptRunner component, in the
refined variant (src/unnamed/part_000 lines 105-160, window 3000 ms plus
modal/cooldown gates) and the simple variant (src/README.md lines 110-158,
window 1000 ms), together with the initial-load settle gate (part_000 lines
34-53) and the idle-check effect (part_000 lines 162-185). -/

/-- Model of `path.toLowerCase()`: case-normalisation for Windows paths. -/
def normalizePath (p : String) : String := String.mk (p.data.map Char.toLower)

structure PendingState where
  lastProcessed : List (String × Nat)
  pending : List String
  checked : List String
deriving DecidableEq

/-- Lookup of `lastProcessedEventsRef.current[normalizedPath]`. -/
def lookupTime (m : List (String × Nat)) (k : String) : Option Nat :=
  (m.find? (fun e => decide (e.1 = k))).map (fun e => e.2)

/-- The accumulation tail common to both variants: store the debounce stamp
for the normalised path, prune stamps older than `now - 10000`, refresh the
scripts list (no state here), append the raw path to `pendingScripts` unless
already present, and add it to `checkedPendingScripts`. -/
def recordChange (st : PendingState) (path norm : String) (now : Nat) : PendingState :=
  { lastProcessed :=
      ((norm, now) :: st.lastProcessed.filter (fun e => !(decide (e.1 = norm)))).filter
        (fun e => !(decide (e.2 < now - 10000))),
    pending := if path ∈ st.pending then st.pending else st.pending ++ [path],
    checked := if path ∈ st.checked then st.checked else path :: st.checked }

/-- The gate flags read by the refined change-event effect. -/
structure EventCtx where
  loaded : Bool
  showModal : Bool
  dismissedAt : Nat
deriving DecidableEq

/-- The refined change-event effect (part_000 lines 107-160): skip until the
initial load settles, while the prompt is open, or during the 5-second
post-dismiss cooldown; then drop the event when the same normalised path was
processed less than 3000 ms ago, else record it. -/
def scriptChangeRefined (ctx : EventCtx) (st : PendingState) (path : String)
    (now : Nat) : PendingState :=
  if ctx.loaded = false then st
  else if ctx.showModal = true then st
  else if now - ctx.dismissedAt < 5000 then st
  else
    match lookupTime st.lastProcessed (normalizePath path) with
    | some t =>
      if now - t < 3000 then st
      else recordChange st path (normalizePath path) now
    | none => recordChange st path (normalizePath path) now

/-- The simple change-event effect (README lines 115-158): only the
initial-load gate, with a 1000 ms debounce window. -/
def scriptChangeSimple (loaded : Bool) (st : PendingState) (path : String)
    (now : Nat) : PendingState :=
  if loaded = false then st
  else
    match lookupTime st.lastProcessed (normalizePath path) with
    | some t =>
      if now - t < 1000 then st
      else recordChange st path (normalizePath path) now
    | none => recordChange st path (normalizePath path) now

/-- One delivered change notification together with the gate flags in force
when it is handled. -/
structure ChangeEv where
  path : String
  now : Nat
  ctx : EventCtx
deriving DecidableEq

def pendingTrace (st : PendingState) (evs : List ChangeEv) : PendingState :=
  evs.foldl (fun acc e => scriptChangeRefined e.ctx acc e.path e.now) st

/-- The idle check (part_000 lines 162-185): the effect only runs while
pending scripts exist, terminal activity has been reported (`lastActivity =
0` models a falsy value) and no prompt is open; each 500 ms tick keeps quiet
during the post-dismiss cooldown and opens the prompt once the terminal has
been idle for at least 2000 ms.  Returns the new value of
`showPendingModal`. -/
def checkIdle (pendingLen lastActivity : Nat) (showModal : Bool)
    (dismissedAt now : Nat) : Bool :=
  if pendingLen = 0 ∨ lastActivity = 0 ∨ showModal = true then showModal
  else if now - dismissedAt < 5000 then showModal
  else if 2000 ≤ now - lastActivity then true
  else showModal

/-- The initial-load settle gate (part_000 lines 34-53): the first successful
`/api/scripts` fetch at `t0` arms a 2000 ms timer that sets
`hasCompletedInitialLoadRef`, so the flag is true at `now` exactly when some
successful fetch happened at least 2 s earlier. -/
def initialLoadComplete (firstFetchOkAt : Option Nat) (now : Nat) : Bool :=
  match firstFetchOkAt with
  | none => false
  | some t0 => t0 + 2000 ≤ now

theorem lookupTime_record (st : PendingState) (p norm : String) (now : Nat) :
    lookupTime (recordChange st p norm now).lastProcessed norm = some now := by
  unfold recordChange lookupTime
  have hkeep : (!(decide (now < now - 10000))) = true := by
    simp only [Bool.not_eq_true', decide_eq_false_iff_not]
    omega
  rw [List.filter_cons, if_pos hkeep]
  rw [List.find?_cons_of_pos _ (by simp)]
  rfl

theorem scriptChangeRefined_eq_found (ctx : EventCtx) (st : PendingState)
    (p : String) (now t : Nat) (hl : ctx.loaded = true) (hm : ctx.showModal = false)
    (hc : 5000 ≤ now - ctx.dismissedAt)
    (hlk : lookupTime st.lastProcessed (normalizePath p) = some t) :
    scriptChangeRefined ctx st p now =
      if now - t < 3000 then st else recordChange st p (normalizePath p) now := by
  unfold scriptChangeRefined
  rw [if_neg (by simp [hl]), if_neg (by simp [hm]), if_neg (by omega), hlk]

theorem scriptChangeRefined_eq_fresh (ctx : EventCtx) (st : PendingState)
    (p : String) (now : Nat) (hl : ctx.loaded = true) (hm : ctx.showModal = false)
    (hc : 5000 ≤ now - ctx.dismissedAt)
    (hlk : lookupTime st.lastProcessed (normalizePath p) = none) :
    scriptChangeRefined ctx st p now = recordChange st p (normalizePath p) now := by
  unfold scriptChangeRefined
  rw [if_neg (by simp [hl]), if_neg (by simp [hm]), if_neg (by omega), hlk]

theorem scriptChangeSimple_eq_found (st : PendingState) (p : String) (now t : Nat)
    (hlk : lookupTime st.lastProcessed (normalizePath p) = some t) :
    scriptChangeSimple true st p now =
      if now - t < 1000 then st else recordChange st p (normalizePath p) now := by
  unfold scriptChangeSimple
  rw [if_neg (by simp), hlk]

theorem scriptChangeSimple_eq_fresh (st : PendingState) (p : String) (now : Nat)
    (hlk : lookupTime st.lastProcessed (normalizePath p) = none) :
    scriptChangeSimple true st p now = recordChange st p (normalizePath p) now := by
  unfold scriptChangeSimple
  rw [if_neg (by simp), hlk]

/-- Every call of the refined change-event effect either leaves the state
unchanged (one of the early returns or the debounce drop) or records the
change. -/
theorem scriptChangeRefined_cases (ctx : EventCtx) (st : PendingState) (p : String)
    (now : Nat) :
    scriptChangeRefined ctx st p now = st ∨
    scriptChangeRefined ctx st p now = recordChange st p (normalizePath p) now := by
  unfold scriptChangeRefined
  by_cases h1 : ctx.loaded = false
  · exact Or.inl (if_pos h1)
  · rw [if_neg h1]
    by_cases h2 : ctx.showModal = true
    · exact Or.inl (if_pos h2)
    · rw [if_neg h2]
      by_cases h3 : now - ctx.dismissedAt < 5000
      · exact Or.inl (if_pos h3)
      · rw [if_neg h3]
        rcases hlk : lookupTime st.lastProcessed (normalizePath p) with _ | t
        · exact Or.inr rfl
        · by_cases hw : now - t < 3000
          · exact Or.inl (if_pos hw)
          · exact Or.inr (if_neg hw)

theorem recordChange_pending (st : PendingState) (p norm : String) (now : Nat) :
    (recordChange st p norm now).pending =
      if p ∈ st.pending then st.pending else st.pending ++ [p] := rfl

/-- C3 counterexample: in the refined variant two events for the same
exact path 10 s apart — far outside every debounce window — still leave a
single pending entry, because `pendingScripts` is deduplicated by path; so
"both events are recorded as pending-script entries" fails as stated. -/
theorem C3_debounce_counterexample :
    3000 ≤ 20000 - 10000 ∧
    (scriptChangeRefined ⟨true, false, 0⟩ ⟨[], [], []⟩ "a.py" 10000).pending
      = ["a.py"] ∧
    (scriptChangeRefined ⟨true, false, 0⟩
        (scriptChangeRefined ⟨true, false, 0⟩ ⟨[], [], []⟩ "a.py" 10000)
        "a.py" 20000).pending = ["a.py"] ∧
    ((scriptChangeRefined ⟨true, false, 0⟩
        (scriptChangeRefined ⟨true, false, 0⟩ ⟨[], [], []⟩ "a.py" 10000)
        "a.py" 20000).pending.length = 1) := by
  refine ⟨by omega, ?_, ?_, ?_⟩ <;> decide

/-- C3 amended: for two events with the same case-normalised path
(gates open, first path not recently seen), a second event within the
debounce window (3000 ms refined, 1000 ms simple) changes nothing; a second
event outside the window is recorded: its path ends up pending, as a new
entry exactly when its exact path is not already in the pending list (an
identical path is absorbed into the existing entry). -/
theorem C3_debounce_amended (ctx : EventCtx) (st0 : PendingState) (p p2 : String)
    (t1 t2 : Nat)
    (hload : ctx.loaded = true) (hmodal : ctx.showModal = false)
    (hcool1 : 5000 ≤ t1 - ctx.dismissedAt) (hcool2 : 5000 ≤ t2 - ctx.dismissedAt)
    (hnorm : normalizePath p2 = normalizePath p)
    (hfresh : lookupTime st0.lastProcessed (normalizePath p) = none) :
    (t2 - t1 < 3000 →
      scriptChangeRefined ctx (scriptChangeRefined ctx st0 p t1) p2 t2
        = scriptChangeRefined ctx st0 p t1) ∧
    (3000 ≤ t2 - t1 →
      p2 ∈ (scriptChangeRefined ctx (scriptChangeRefined ctx st0 p t1) p2 t2).pending ∧
      (p2 ∉ (scriptChangeRefined ctx st0 p t1).pending →
        (scriptChangeRefined ctx (scriptChangeRefined ctx st0 p t1) p2 t2).pending
          = (scriptChangeRefined ctx st0 p t1).pending ++ [p2])) ∧
    (t2 - t1 < 1000 →
      scriptChangeSimple true (scriptChangeSimple true st0 p t1) p2 t2
        = scriptChangeSimple true st0 p t1) ∧
    (1000 ≤ t2 - t1 →
      p2 ∈ (scriptChangeSimple true (scriptChangeSimple true st0 p t1) p2 t2).pending ∧
      (p2 ∉ (scriptChangeSimple true st0 p t1).pending →
        (scriptChangeSimple true (scriptChangeSimple true st0 p t1) p2 t2).pending
          = (scriptChangeSimple true st0 p t1).pending ++ [p2])) := by
  have h1R : scriptChangeRefined ctx st0 p t1 = recordChange st0 p (normalizePath p) t1 :=
    scriptChangeRefined_eq_fresh ctx st0 p t1 hload hmodal hcool1 hfresh
  have h1S : scriptChangeSimple true st0 p t1 = recordChange st0 p (normalizePath p) t1 :=
    scriptChangeSimple_eq_fresh st0 p t1 hfresh
  have hlkR : lookupTime (scriptChangeRefined ctx st0 p t1).lastProcessed
      (normalizePath p2) = some t1 := by
    rw [h1R, hnorm]; exact lookupTime_record st0 p (normalizePath p) t1
  have hlkS : lookupTime (scriptChangeSimple true st0 p t1).lastProcessed
      (normalizePath p2) = some t1 := by
    rw [h1S, hnorm]; exact lookupTime_record st0 p (normalizePath p) t1
  have h2R := scriptChangeRefined_eq_found ctx _ p2 t2 t1 hload hmodal hcool2 hlkR
  have h2S := scriptChangeSimple_eq_found _ p2 t2 t1 hlkS
  refine ⟨?_, ?_, ?_, ?_⟩
  · intro hw
    rw [h2R, if_pos hw]
  · intro hw
    rw [h2R, if_neg (by omega), recordChange_pending]
    constructor
    · by_cases hp : p2 ∈ (scriptChangeRefined ctx st0 p t1).pending
      · rw [if_pos hp]; exact hp
      · rw [if_neg hp]; exact List.mem_append_right _ (List.mem_singleton.mpr rfl)
    · intro hp
      rw [if_neg hp]
  · intro hw
    rw [h2S, if_pos hw]
  · intro hw
    rw [h2S, if_neg (by omega), recordChange_pending]
    constructor
    · by_cases hp : p2 ∈ (scriptChangeSimple true st0 p t1).pending
      · rw [if_pos hp]; exact hp
      · rw [if_neg hp]; exact List.mem_append_right _ (List.mem_singleton.mpr rfl)
    · intro hp
      rw [if_neg hp]

/-- Witness for the amended C3 at concrete inputs: two same-normalised paths
of different case, 10 s apart, both recorded. -/
theorem C3_debounce_amended_witness :
    (scriptChangeRefined ⟨true, false, 0⟩
        (scriptChangeRefined ⟨true, false, 0⟩ ⟨[], [], []⟩ "A.PY" 10000)
        "a.py" 20000).pending
      = (scriptChangeRefined ⟨true, false, 0⟩ ⟨[], [], []⟩ "A.PY" 10000).pending
          ++ ["a.py"] := by
  have h := C3_debounce_amended ⟨true, false, 0⟩ ⟨[], [], []⟩ "A.PY" "a.py" 10000 20000
    rfl rfl (by decide) (by decide) (by decide) (by decide)
  exact (h.2.1 (by decide)).2 (by decide)

theorem scriptChangeRefined_skip (ctx : EventCtx) (st : PendingState) (p : String)
    (t : Nat) (h : ctx.loaded = false) :
    scriptChangeRefined ctx st p t = st := by
  unfold scriptChangeRefined
  rw [if_pos h]

/-- C4: the "Scripts Modified" prompt opens only when pending scripts
exist, terminal activity is known and at least 2 s old at the idle check,
and the post-dismiss cooldown has passed; the idle check never opens it with
no pending scripts or with recent activity; the settle flag is false before
2 s have elapsed after the first successful fetch; and change events
delivered while the settle flag is false are discarded, so the whole state —
in particular the pending list — is untouched. -/
theorem C4_prompt_gating (pl la dis now : Nat) :
    (checkIdle pl la false dis now = true →
      pl ≠ 0 ∧ la ≠ 0 ∧ 2000 ≤ now - la ∧ 5000 ≤ now - dis) ∧
    (pl = 0 → ∀ sm, checkIdle pl la sm dis now = sm) ∧
    (now - la < 2000 → ∀ sm, checkIdle pl la sm dis now = sm) ∧
    (∀ t0 : Nat, now < t0 + 2000 → initialLoadComplete (some t0) now = false) ∧
    (initialLoadComplete none now = false) ∧
    (∀ (st : PendingState) (evs : List ChangeEv),
      (∀ e ∈ evs, e.ctx.loaded = false) → pendingTrace st evs = st) := by
  refine ⟨?_, ?_, ?_, ?_, rfl, ?_⟩
  · intro h
    unfold checkIdle at h
    by_cases h1 : pl = 0 ∨ la = 0 ∨ (false : Bool) = true
    · rw [if_pos h1] at h; simp at h
    · rw [if_neg h1] at h
      push_neg at h1
      by_cases h2 : now - dis < 5000
      · rw [if_pos h2] at h; simp at h
      · rw [if_neg h2] at h
        by_cases h3 : 2000 ≤ now - la
        · exact ⟨h1.1, h1.2.1, h3, by omega⟩
        · rw [if_neg h3] at h; simp at h
  · intro h sm
    unfold checkIdle
    rw [if_pos (Or.inl h)]
  · intro h sm
    unfold checkIdle
    by_cases h1 : pl = 0 ∨ la = 0 ∨ sm = true
    · rw [if_pos h1]
    · rw [if_neg h1]
      by_cases h2 : now - dis < 5000
      · rw [if_pos h2]
      · rw [if_neg h2, if_neg (by omega)]
  · intro t0 h
    unfold initialLoadComplete
    simp only [decide_eq_false_iff_not]
    omega
  · intro st evs hall
    induction evs generalizing st with
    | nil => rfl
    | cons e rest ih =>
      have he : e.ctx.loaded = false := hall e (List.mem_cons_self e rest)
      have hstep : scriptChangeRefined e.ctx st e.path e.now = st :=
        scriptChangeRefined_skip e.ctx st e.path e.now he
      have : pendingTrace st (e :: rest) = pendingTrace st rest := by
        unfold pendingTrace
        rw [List.foldl_cons, hstep]
      rw [this]
      exact ih st (fun x hx => hall x (List.mem_cons_of_mem e hx))

/-- Witness for C4: a concrete idle check that does open the prompt, with all
three gating conditions verified to hold there. -/
theorem C4_prompt_gating_witness :
    1 ≠ 0 ∧ 5000 ≠ 0 ∧ 2000 ≤ 10000 - 5000 ∧ 5000 ≤ 10000 - 0 := by
  have h := (C4_prompt_gating 1 5000 0 10000).1
  exact h (by decide)

theorem scriptChangeRefined_pending_step (ctx : EventCtx) (st : PendingState)
    (p : String) (now : Nat) :
    (scriptChangeRefined ctx st p now).pending = st.pending ∨
    (p ∉ st.pending ∧
      (scriptChangeRefined ctx st p now).pending = st.pending ++ [p]) := by
  rcases scriptChangeRefined_cases ctx st p now with h | h
  · rw [h]; exact Or.inl rfl
  · rw [h, recordChange_pending]
    by_cases hp : p ∈ st.pending
    · rw [if_pos hp]; exact Or.inl rfl
    · rw [if_neg hp]; exact Or.inr ⟨hp, rfl⟩

theorem scriptChangeRefined_pending_nodup (ctx : EventCtx) (st : PendingState)
    (p : String) (now : Nat) (h : st.pending.Nodup) :
    (scriptChangeRefined ctx st p now).pending.Nodup := by
  rcases scriptChangeRefined_pending_step ctx st p now with hs | ⟨hmem, hs⟩
  · rw [hs]; exact h
  · rw [hs]
    simp [List.nodup_append, h, hmem]

/-- Model of `handleApprovePending` (part_000 lines 473-482): the scripts submitted to
the run queue are the checked subset of the pending list. -/
def approvedScripts (st : PendingState) : List String :=
  st.pending.filter (fun p => decide (p ∈ st.checked))

/-- C10: the pending-scripts list never contains the same exact path
twice: every accumulation step either leaves the list unchanged or appends a
path that is not yet present (independently adding it to the checked set);
hence along any event trace a duplicate-free pending list stays
duplicate-free, and approving the prompt submits each distinct pending path
at most once. -/
theorem C10_pending_no_duplicates (st : PendingState) (evs : List ChangeEv)
    (hnd : st.pending.Nodup) :
    (∀ ctx p now, (scriptChangeRefined ctx st p now).pending = st.pending ∨
      (p ∉ st.pending ∧
        (scriptChangeRefined ctx st p now).pending = st.pending ++ [p])) ∧
    (∀ ctx p now, p ∈ (scriptChangeRefined ctx st p now).checked ∨
      scriptChangeRefined ctx st p now = st) ∧
    (pendingTrace st evs).pending.Nodup ∧
    (∀ x, ((pendingTrace st evs).pending.filter
        (fun p => decide (p ∈ (pendingTrace st evs).checked))).count x ≤ 1) ∧
    (∀ x, (approvedScripts (pendingTrace st evs)).count x ≤ 1) := by
  have htrace : (pendingTrace st evs).pending.Nodup := by
    induction evs generalizing st with
    | nil => exact hnd
    | cons e rest ih =>
      have hstep := scriptChangeRefined_pending_nodup e.ctx st e.path e.now hnd
      have : pendingTrace st (e :: rest) =
          pendingTrace (scriptChangeRefined e.ctx st e.path e.now) rest := by
        unfold pendingTrace
        rw [List.foldl_cons]
      rw [this]
      exact ih _ hstep
  have hcount : ∀ x, ((pendingTrace st evs).pending.filter
      (fun p => decide (p ∈ (pendingTrace st evs).checked))).count x ≤ 1 := by
    intro x
    have hf : ((pendingTrace st evs).pending.filter
        (fun p => decide (p ∈ (pendingTrace st evs).checked))).Nodup :=
      List.Nodup.filter _ htrace
    exact List.nodup_iff_count_le_one.mp hf x
  refine ⟨fun ctx p now => scriptChangeRefined_pending_step ctx st p now, ?_,
    htrace, hcount, hcount⟩
  intro ctx p now
  rcases scriptChangeRefined_cases ctx st p now with h | h
  · exact Or.inr h
  · left
    rw [h]
    show p ∈ (if p ∈ st.checked then st.checked else p :: st.checked)
    by_cases hp : p ∈ st.checked
    · rw [if_pos hp]; exact hp
    · rw [if_neg hp]; exact List.mem_cons_self _ _

/-- Witness for C10 along a concrete trace with a repeated path. -/
theorem C10_pending_no_duplicates_witness :
    (pendingTrace ⟨[], [], []⟩
      [⟨"a.py", 10000, ⟨true, false, 0⟩⟩, ⟨"b.py", 20000, ⟨true, false, 0⟩⟩,
        ⟨"a.py", 30000, ⟨true, false, 0⟩⟩]).pending.Nodup := by
  have h := C10_pending_no_duplicates ⟨[], [], []⟩
    [⟨"a.py", 10000, ⟨true, false, 0⟩⟩, ⟨"b.py", 20000, ⟨true, false, 0⟩⟩,
      ⟨"a.py", 30000, ⟨true, false, 0⟩⟩] (by decide)
  exact h.2.2.1

/-! ## Remote terminal (fit-to-container variant): reconnect
Source: src/unnamed/part_001 — constants (lines 7-9), `connectWebSocket`'s
`ws.onclose` handler (lines 196-219) and `handleRestart` (lines 271-276). -/

def MAX_RECONNECT_ATTEMPTS : Nat := 30
def RECONNECT_DELAY : Nat := 1000

inductive ConnStatus
  | waiting
  | connecting
  | connected
  | error
deriving DecidableEq

structure TermState where
  reconnectAttempts : Nat
  connectionStatus : ConnStatus
deriving DecidableEq

/-- What the `onclose` handler does besides updating state: schedule exactly
one reconnect via `setTimeout(connectWebSocket, RECONNECT_DELAY)`, or give up
and write the disconnect message to the terminal. -/
inductive CloseEffect
  | scheduleReconnect (delayMs : Nat)
  | giveUp (message : String)
deriving DecidableEq

def disconnectMessage : String :=
  "\r\n\x1b[33mTerminal disconnected. Click \"Restart Virtual Terminal\" to reconnect.\x1b[0m"

/-- Model of `ws.onclose`: while the attempt counter is below the cap and the parent
still reports the Codespace connected, bump the counter, show `connecting`
and schedule one reconnect after `RECONNECT_DELAY`; otherwise enter the
`error` state, write the disconnect message and schedule nothing. -/
def onClose (isConnected : Bool) (s : TermState) : TermState × CloseEffect :=
  if s.reconnectAttempts < MAX_RECONNECT_ATTEMPTS ∧ isConnected = true then
    (⟨s.reconnectAttempts + 1, ConnStatus.connecting⟩,
      CloseEffect.scheduleReconnect RECONNECT_DELAY)
  else
    (⟨s.reconnectAttempts, ConnStatus.error⟩, CloseEffect.giveUp disconnectMessage)

/-- Model of `handleRestart`: clear any scheduled reconnect, reset the attempt counter
to 0 and bump `restartKey` (forcing a fresh connection). -/
def handleRestart (s : TermState) : TermState :=
  ⟨0, s.connectionStatus⟩

/-- The state after `k` consecutive close events with the parent still
reporting connectivity. -/
def closesFrom (s : TermState) : Nat → TermState
  | 0 => s
  | n + 1 => closesFrom (onClose true s).1 n

theorem closesFrom_attempts (k : Nat) :
    ∀ s : TermState, s.reconnectAttempts + k ≤ MAX_RECONNECT_ATTEMPTS →
      (closesFrom s k).reconnectAttempts = s.reconnectAttempts + k := by
  induction k with
  | zero => intro s _; rfl
  | succ n ih =>
    intro s hs
    have hlt : s.reconnectAttempts < MAX_RECONNECT_ATTEMPTS := by omega
    have hstep : (onClose true s).1 = ⟨s.reconnectAttempts + 1, ConnStatus.connecting⟩ := by
      unfold onClose
      rw [if_pos ⟨hlt, rfl⟩]
    show (closesFrom (onClose true s).1 n).reconnectAttempts = s.reconnectAttempts + (n + 1)
    rw [hstep, ih ⟨s.reconnectAttempts + 1, ConnStatus.connecting⟩
      (by show s.reconnectAttempts + 1 + n ≤ MAX_RECONNECT_ATTEMPTS; omega)]
    show s.reconnectAttempts + 1 + n = s.reconnectAttempts + (n + 1)
    omega

/-- C5: while the parent reports the Codespace connected, every close
with fewer than 30 recorded attempts schedules exactly one reconnect after
1000 ms; starting from a fresh connection, 30 consecutive closes each
schedule a reconnect and leave the counter at 30, and the next close
transitions to the error state, writes the disconnect message and schedules
nothing; `handleRestart` resets the counter to 0. -/
theorem C5_reconnect_cap (s : TermState) (k : Nat) (hk : k ≤ 30) :
    (s.reconnectAttempts < 30 →
      onClose true s = (⟨s.reconnectAttempts + 1, ConnStatus.connecting⟩,
        CloseEffect.scheduleReconnect 1000)) ∧
    (30 ≤ s.reconnectAttempts →
      onClose true s = (⟨s.reconnectAttempts, ConnStatus.error⟩,
        CloseEffect.giveUp disconnectMessage)) ∧
    (closesFrom ⟨0, ConnStatus.connecting⟩ k).reconnectAttempts = k ∧
    (onClose true (closesFrom ⟨0, ConnStatus.connecting⟩ 30)
      = (⟨30, ConnStatus.error⟩, CloseEffect.giveUp disconnectMessage)) ∧
    (handleRestart s).reconnectAttempts = 0 := by
  have h30 : (closesFrom ⟨0, ConnStatus.connecting⟩ 30).reconnectAttempts = 30 := by
    have := closesFrom_attempts 30 ⟨0, ConnStatus.connecting⟩ (by decide)
    simpa using this
  refine ⟨?_, ?_, ?_, ?_, rfl⟩
  · intro h
    unfold onClose
    rw [if_pos ⟨h, rfl⟩]
    rfl
  · intro h
    unfold onClose
    rw [if_neg (by simp [MAX_RECONNECT_ATTEMPTS]; omega)]
  · have := closesFrom_attempts k ⟨0, ConnStatus.connecting⟩ (by simpa using hk)
    simpa using this
  · unfold onClose
    rw [if_neg (by simp [MAX_RECONNECT_ATTEMPTS]; omega), h30]

/-- Witness for C5 at a concrete state below the cap. -/
theorem C5_reconnect_cap_witness :
    onClose true ⟨4, ConnStatus.connected⟩
      = (⟨5, ConnStatus.connecting⟩, CloseEffect.scheduleReconnect 1000) ∧
    (closesFrom ⟨0, ConnStatus.connecting⟩ 7).reconnectAttempts = 7 := by
  have h := C5_reconnect_cap ⟨4, ConnStatus.connected⟩ 7 (by decide)
  exact ⟨h.1 (by decide), h.2.2.1⟩

/-! ## CodespaceSync panel: codespace-readiness polling
Source: src/frontend/src/components/CodespaceSync.jsx — `pollForReady`
closures inside `handleCreateCodespace` (lines 376-400, cap 300),
`handleLaunchCodespace` (lines 426-446, cap 120) and `handleConnect`
(lines 467-490, cap 120).  Each recursion level probes `checkSyncServer`
once and reschedules itself after 1000 ms; `probe n` is the result of the
liveness probe at attempt counter `n`. -/

/-- Outcome of a readiness poll: `.connected n` is the branch that sets
`isConnected := true` (after the probe at counter value `n` succeeded);
`.timeout` is the give-up branch entered when `attempts > cap`. -/
inductive ReadyOutcome
  | connected (attempts : Nat)
  | timeout
deriving DecidableEq

def pollForReady (cap : Nat) (probe : Nat → Bool) (attempts : Nat) : ReadyOutcome :=
  if cap < attempts then ReadyOutcome.timeout
  else if probe attempts then ReadyOutcome.connected attempts
  else pollForReady cap probe (attempts + 1)
termination_by cap + 1 - attempts
decreasing_by omega

/-- The number of liveness probes performed by `pollForReady`. -/
def pollProbeCount (cap : Nat) (probe : Nat → Bool) (attempts : Nat) : Nat :=
  if cap < attempts then 0
  else if probe attempts then 1
  else 1 + pollProbeCount cap probe (attempts + 1)
termination_by cap + 1 - attempts
decreasing_by omega

theorem pollForReady_connected_spec (cap : Nat) (probe : Nat → Bool) :
    ∀ d a k, cap + 1 - a ≤ d →
      pollForReady cap probe a = ReadyOutcome.connected k →
      a ≤ k ∧ k ≤ cap ∧ probe k = true ∧ ∀ j, a ≤ j → j < k → probe j = false := by
  intro d
  induction d with
  | zero =>
    intro a k ha h
    unfold pollForReady at h
    rw [if_pos (by omega)] at h
    simp at h
  | succ n ih =>
    intro a k ha h
    unfold pollForReady at h
    by_cases hc : cap < a
    · rw [if_pos hc] at h; simp at h
    · rw [if_neg hc] at h
      by_cases hp : probe a = true
      · rw [if_pos hp] at h
        have hk : k = a := by
          have := h
          injection this with h2
          omega
        subst hk
        exact ⟨le_refl _, by omega, hp, fun j h1 h2 => by omega⟩
      · rw [if_neg hp] at h
        rcases ih (a + 1) k (by omega) h with ⟨h1, h2, h3, h4⟩
        refine ⟨by omega, h2, h3, ?_⟩
        intro j hj1 hj2
        by_cases hje : j = a
        · subst hje
          simpa using hp
        · exact h4 j (by omega) hj2

theorem pollForReady_timeout_spec (cap : Nat) (probe : Nat → Bool) :
    ∀ d a, cap + 1 - a ≤ d →
      (pollForReady cap probe a = ReadyOutcome.timeout ↔
        ∀ j, a ≤ j → j ≤ cap → probe j = false) := by
  intro d
  induction d with
  | zero =>
    intro a ha
    unfold pollForReady
    rw [if_pos (by omega)]
    constructor
    · intro _ j hj1 hj2
      omega
    · intro _; rfl
  | succ n ih =>
    intro a ha
    unfold pollForReady
    by_cases hc : cap < a
    · rw [if_pos hc]
      constructor
      · intro _ j hj1 hj2; omega
      · intro _; rfl
    · rw [if_neg hc]
      by_cases hp : probe a = true
      · rw [if_pos hp]
        constructor
        · intro h; simp at h
        · intro h
          have := h a (le_refl a) (by omega)
          rw [hp] at this
          simp at this
      · rw [if_neg hp]
        rw [ih (a + 1) (by omega)]
        constructor
        · intro h j hj1 hj2
          by_cases hje : j = a
          · subst hje; simpa using hp
          · exact h j (by omega) hj2
        · intro h j hj1 hj2
          exact h j (by omega) hj2

theorem pollProbeCount_le (cap : Nat) (probe : Nat → Bool) :
    ∀ d a, cap + 1 - a ≤ d → pollProbeCount cap probe a ≤ cap + 1 - a := by
  intro d
  induction d with
  | zero =>
    intro a ha
    unfold pollProbeCount
    rw [if_pos (by omega)]
    omega
  | succ n ih =>
    intro a ha
    unfold pollProbeCount
    by_cases hc : cap < a
    · rw [if_pos hc]; omega
    · rw [if_neg hc]
      by_cases hp : probe a = true
      · rw [if_pos hp]; omega
      · rw [if_neg hp]
        have := ih (a + 1) (by omega)
        omega

theorem pollProbeCount_allFalse (cap : Nat) :
    ∀ d a, cap + 1 - a ≤ d →
      pollProbeCount cap (fun _ => false) a = cap + 1 - a := by
  intro d
  induction d with
  | zero =>
    intro a ha
    unfold pollProbeCount
    rw [if_pos (by omega)]
    omega
  | succ n ih =>
    intro a ha
    unfold pollProbeCount
    by_cases hc : cap < a
    · rw [if_pos hc]; omega
    · rw [if_neg hc]
      rw [if_neg (by simp)]
      rw [ih (a + 1) (by omega)]
      omega

/-- C6 counterexample: with every probe failing, the creation poller
performs 301 liveness probes (counter values 0 through 300 inclusive, since
it only gives up once `attempts > 300`) and the start/connect pollers
perform 121 — not "at most 300" / "at most 120" as claimed. -/
theorem C6_poll_attempts_counterexample :
    pollProbeCount 300 (fun _ => false) 0 = 301 ∧ ¬(301 ≤ 300) ∧
    pollProbeCount 120 (fun _ => false) 0 = 121 ∧ ¬(121 ≤ 120) := by
  refine ⟨?_, by omega, ?_, by omega⟩
  · have := pollProbeCount_allFalse 300 301 0 (by omega)
    simpa using this
  · have := pollProbeCount_allFalse 120 121 0 (by omega)
    simpa using this

/-- C6 amended: readiness polling always terminates (the poller is a
total function); it reports `connected` exactly at the first successful
probe, which also sets the connection state; with no successful probe up to
the cap it times out, performing exactly `cap + 1` probes — 301 after a
creation (cap 300) and 121 after a plain start/connect (cap 120). -/
theorem C6_poll_termination (cap : Nat) (probe : Nat → Bool) (k : Nat) :
    (pollForReady cap probe 0 = ReadyOutcome.connected k →
      k ≤ cap ∧ probe k = true ∧ ∀ j < k, probe j = false) ∧
    (pollForReady cap probe 0 = ReadyOutcome.timeout ↔
      ∀ j ≤ cap, probe j = false) ∧
    pollProbeCount cap probe 0 ≤ cap + 1 ∧
    pollProbeCount cap (fun _ => false) 0 = cap + 1 := by
  refine ⟨?_, ?_, ?_, ?_⟩
  · intro h
    rcases pollForReady_connected_spec cap probe (cap + 1) 0 k (by omega) h
      with ⟨_, h2, h3, h4⟩
    exact ⟨h2, h3, fun j hj => h4 j (by omega) hj⟩
  · rw [pollForReady_timeout_spec cap probe (cap + 1) 0 (by omega)]
    constructor
    · intro h j hj; exact h j (by omega) hj
    · intro h j _ hj; exact h j hj
  · have := pollProbeCount_le cap probe (cap + 1) 0 (by omega)
    omega
  · have := pollProbeCount_allFalse cap (cap + 1) 0 (by omega)
    omega

/-- Witness for the amended C6 at cap 120 with no probe ever succeeding. -/
theorem C6_poll_termination_witness :
    pollForReady 120 (fun _ => false) 0 = ReadyOutcome.timeout ∧
    pollProbeCount 120 (fun _ => false) 0 = 121 := by
  have h := C6_poll_termination 120 (fun _ => false) 0
  refine ⟨h.2.1.mpr ?_, ?_⟩
  · intro j _; rfl
  · have h2 := h.2.2.2
    omega

/-! ## CodespaceSync panel: device-flow polling
Source: CodespaceSync.jsx — `pollForToken` inside `handleLogin`
(lines 257-317) and `handleLogout` (lines 319-337). -/

/-- One response of the token poll (`pollDeviceFlow`): the terminal ones are
an access token, `expired_token`, `access_denied`, and a thrown poll error;
`slow_down`, `authorization_pending` and any unknown response reschedule the
poll.  `slowDown 0` models a falsy/absent `result.interval`. -/
inductive DeviceResp
  | accessToken
  | expiredToken
  | accessDenied
  | slowDown (interval : Nat)
  | authPending
  | unknown
  | pollError
deriving DecidableEq

inductive DeviceOutcome
  | loggedIn
  | expired
  | denied
  | failed
deriving DecidableEq

/-- Classification of a response by `pollForToken`'s branch structure. -/
def respOutcome : DeviceResp → Option DeviceOutcome
  | DeviceResp.accessToken => some DeviceOutcome.loggedIn
  | DeviceResp.expiredToken => some DeviceOutcome.expired
  | DeviceResp.accessDenied => some DeviceOutcome.denied
  | DeviceResp.pollError => some DeviceOutcome.failed
  | _ => none

def isTerminalResp (r : DeviceResp) : Bool := (respOutcome r).isSome

/-- A `slow_down` response replaces the poll interval by `(result.interval || 10) * 1000`. -/
def nextInterval (interval : Nat) : DeviceResp → Nat
  | DeviceResp.slowDown i => (if i = 0 then 10 else i) * 1000
  | _ => interval

/-- Run the poll loop over a finite response trace: stop at the first
terminal response, else keep polling; `none` means the trace ended with a
further poll scheduled in `devicePollRef`. -/
def pollDevice (interval : Nat) : List DeviceResp → Option DeviceOutcome
  | [] => none
  | r :: rest =>
    match respOutcome r with
    | some o => some o
    | none => pollDevice (nextInterval interval r) rest

/-- The scheduler view of the device flow: `scheduled` is whether a
`setTimeout(pollForToken, …)` is pending in `devicePollRef`. -/
structure DeviceFlow where
  scheduled : Bool
  outcome : Option DeviceOutcome
  interval : Nat
deriving DecidableEq

def deviceStep (s : DeviceFlow) (r : DeviceResp) : DeviceFlow :=
  if s.scheduled = false then s
  else
    match s.outcome with
    | some _ => s
    | none =>
      match respOutcome r with
      | some o => ⟨false, some o, nextInterval s.interval r⟩
      | none => ⟨true, none, nextInterval s.interval r⟩

def deviceRun (s : DeviceFlow) (rs : List DeviceResp) : DeviceFlow :=
  rs.foldl deviceStep s

/-- Model of `handleLogout`: it clears the scheduled poll (`clearTimeout(devicePollRef)`),
superseding the loop. -/
def deviceLogout (s : DeviceFlow) : DeviceFlow := ⟨false, s.outcome, s.interval⟩

theorem pollDevice_none_iff (rs : List DeviceResp) :
    ∀ i, (pollDevice i rs = none ↔ ∀ r ∈ rs, isTerminalResp r = false) := by
  induction rs with
  | nil => intro i; simp [pollDevice]
  | cons r rest ih =>
    intro i
    unfold pollDevice
    rcases hr : respOutcome r with _ | o
    · rw [ih (nextInterval i r)]
      constructor
      · intro h x hx
        rcases List.mem_cons.mp hx with hx | hx
        · subst hx; simp [isTerminalResp, hr]
        · exact h x hx
      · intro h x hx
        exact h x (List.mem_cons_of_mem r hx)
    · constructor
      · intro h; simp at h
      · intro h
        have := h r (List.mem_cons_self r rest)
        simp [isTerminalResp, hr] at this

theorem deviceRun_outcome (rs : List DeviceResp) :
    ∀ i, (deviceRun ⟨true, none, i⟩ rs).outcome = pollDevice i rs ∧
      ((deviceRun ⟨true, none, i⟩ rs).outcome = none →
        (deviceRun ⟨true, none, i⟩ rs).scheduled = true) := by
  induction rs with
  | nil => intro i; exact ⟨rfl, fun _ => rfl⟩
  | cons r rest ih =>
    intro i
    have hstep : deviceStep ⟨true, none, i⟩ r =
        match respOutcome r with
        | some o => ⟨false, some o, nextInterval i r⟩
        | none => ⟨true, none, nextInterval i r⟩ := rfl
    rcases hr : respOutcome r with _ | o
    · have h1 : deviceRun ⟨true, none, i⟩ (r :: rest)
          = deviceRun ⟨true, none, nextInterval i r⟩ rest := by
        unfold deviceRun
        rw [List.foldl_cons, hstep, hr]
      have h2 : pollDevice i (r :: rest) = pollDevice (nextInterval i r) rest := by
        simp only [pollDevice, hr]
      rw [h1, h2]
      exact ih (nextInterval i r)
    · have habsorb : ∀ rest2 : List DeviceResp,
          deviceRun ⟨false, some o, nextInterval i r⟩ rest2
            = ⟨false, some o, nextInterval i r⟩ := by
        intro rest2
        induction rest2 with
        | nil => rfl
        | cons x xs ihx =>
          unfold deviceRun
          rw [List.foldl_cons]
          have : deviceStep ⟨false, some o, nextInterval i r⟩ x
              = ⟨false, some o, nextInterval i r⟩ := rfl
          rw [this]
          exact ihx
      have h1 : deviceRun ⟨true, none, i⟩ (r :: rest)
          = deviceRun ⟨false, some o, nextInterval i r⟩ rest := by
        unfold deviceRun
        rw [List.foldl_cons, hstep, hr]
      have h2 : pollDevice i (r :: rest) = some o := by
        unfold pollDevice
        rw [hr]
      rw [h1, h2, habsorb rest]
      exact ⟨rfl, fun h => by simp at h⟩

theorem pollDevice_some_spec (rs : List DeviceResp) :
    ∀ (i : Nat) (o : DeviceOutcome), pollDevice i rs = some o →
      ∃ pre r post, rs = pre ++ r :: post ∧
        (∀ x ∈ pre, isTerminalResp x = false) ∧ respOutcome r = some o := by
  induction rs with
  | nil => intro i o h; simp [pollDevice] at h
  | cons r rest ih =>
    intro i o h
    unfold pollDevice at h
    rcases hr : respOutcome r with _ | o2
    · rw [hr] at h
      rcases ih (nextInterval i r) o h with ⟨pre, x, post, h1, h2, h3⟩
      refine ⟨r :: pre, x, post, by rw [h1]; rfl, ?_, h3⟩
      intro y hy
      rcases List.mem_cons.mp hy with hy | hy
      · subst hy; simp [isTerminalResp, hr]
      · exact h2 y hy
    · rw [hr] at h
      refine ⟨[], r, rest, rfl, by intro y hy; simp at hy, ?_⟩
      rw [hr]
      injection h with h2
      rw [h2]

/-- C7: device-flow polling never leaves the user without a terminal
outcome or a scheduled next poll.  Over any finite response trace, the loop
reaches no outcome exactly when no terminal response occurred (every
response reschedules the poll); any outcome reached is that of the first
terminal response (success, expiry, denial, or a thrown poll error), after
which nothing is scheduled; and logging out clears the scheduled poll,
superseding the loop. -/
theorem C7_device_flow_termination (i : Nat) (rs : List DeviceResp)
    (o : DeviceOutcome) :
    (pollDevice i rs = none ↔ ∀ r ∈ rs, isTerminalResp r = false) ∧
    ((deviceRun ⟨true, none, i⟩ rs).outcome = pollDevice i rs) ∧
    ((deviceRun ⟨true, none, i⟩ rs).outcome = none →
      (deviceRun ⟨true, none, i⟩ rs).scheduled = true) ∧
    (pollDevice i rs = some o →
      ∃ pre r post, rs = pre ++ r :: post ∧
        (∀ x ∈ pre, isTerminalResp x = false) ∧ respOutcome r = some o) ∧
    (deviceLogout (deviceRun ⟨true, none, i⟩ rs)).scheduled = false :=
  ⟨pollDevice_none_iff rs i, (deviceRun_outcome rs i).1,
    (deviceRun_outcome rs i).2, pollDevice_some_spec rs i o, rfl⟩

/-- Witness for C7 on a concrete trace: two pending responses then denial. -/
theorem C7_device_flow_termination_witness :
    pollDevice 5000
      [DeviceResp.authPending, DeviceResp.slowDown 7, DeviceResp.accessDenied]
      = some DeviceOutcome.denied ∧
    ∃ pre r post,
      [DeviceResp.authPending, DeviceResp.slowDown 7, DeviceResp.accessDenied]
        = pre ++ r :: post ∧
      (∀ x ∈ pre, isTerminalResp x = false) ∧
      respOutcome r = some DeviceOutcome.denied := by
  have h := C7_device_flow_termination 5000
    [DeviceResp.authPending, DeviceResp.slowDown 7, DeviceResp.accessDenied]
    DeviceOutcome.denied
  exact ⟨by decide, h.2.2.2.1 (by decide)⟩

/-! ## CodespaceSync panel: the sync cursor
Source: CodespaceSync.jsx `handleSync` (lines 537-578).  A non-OK response
throws (`throw new Error('Sync failed')`) and lands in the same catch as a
network error, so both are modelled as `.thrown`. -/

abbrev Cursor := List (String × Nat)

structure ScriptsSync where
  last_sync : Option Cursor
  synced_files : Option (List String)
deriving DecidableEq

structure SyncResponse where
  scripts_sync : Option ScriptsSync
deriving DecidableEq

inductive SyncFetch
  | thrown
  | ok (resp : SyncResponse)
deriving DecidableEq

inductive SyncStatus
  | idle
  | syncing
  | success
  | error
deriving DecidableEq

/-- Model of `handleSync`: on failure the catch block only sets the error status —
`lastSyncRef` is untouched; on success the new cursor is
`result.scripts_sync?.last_sync || lastSyncRef.current`. -/
def handleSync (lastSync : Cursor) : SyncFetch → Cursor × SyncStatus
  | SyncFetch.thrown => (lastSync, SyncStatus.error)
  | SyncFetch.ok resp =>
    match resp.scripts_sync with
    | none => (lastSync, SyncStatus.success)
    | some ss =>
      match ss.last_sync with
      | none => (lastSync, SyncStatus.success)
      | some c => (c, SyncStatus.success)

/-- C8: the sync cursor advances only on a successfully received and
applied response: any failure (non-OK response or thrown error) leaves the
stored cursor unchanged, and a success replaces it with the response's
cursor, or keeps it unchanged when the response carries none. -/
theorem C8_sync_cursor (cur : Cursor) (f : SyncFetch) (c : Cursor)
    (sf : Option (List String)) :
    handleSync cur SyncFetch.thrown = (cur, SyncStatus.error) ∧
    ((handleSync cur f).2 = SyncStatus.error → (handleSync cur f).1 = cur) ∧
    handleSync cur (SyncFetch.ok ⟨some ⟨some c, sf⟩⟩) = (c, SyncStatus.success) ∧
    handleSync cur (SyncFetch.ok ⟨some ⟨none, sf⟩⟩) = (cur, SyncStatus.success) ∧
    handleSync cur (SyncFetch.ok ⟨none⟩) = (cur, SyncStatus.success) := by
  refine ⟨rfl, ?_, rfl, rfl, rfl⟩
  intro h
  rcases f with _ | resp
  · rfl
  · rcases resp with ⟨_ | ⟨_ | c2, sf2⟩⟩ <;> simp [handleSync] at h

/-- Witness for C8: a failed sync leaves a concrete cursor untouched. -/
theorem C8_sync_cursor_witness :
    (handleSync [("a.py", 5)] SyncFetch.thrown).1 = [("a.py", 5)] := by
  have h := (C8_sync_cursor [("a.py", 5)] SyncFetch.thrown [] none).2.1
  exact h (by decide)

/-! ## Auth utilities: validateAccess
Source: src/frontend/src/utils/auth.js lines 14-34 (sends
`github_id.toString()` plus the optional username) and src/unnamed/part_003
lines 60-77 (legacy variant, sends `github_id` verbatim, no username).
A rejected fetch and a body that fails to parse both land in the catch
block, modelled as `.thrown`; `response.ok === false` is `.httpError`. -/

structure ValidateResult where
  valid : Bool
  reason : Option String
deriving DecidableEq

inductive ValidateFetch
  | thrown
  | httpError
  | ok (body : ValidateResult)
deriving DecidableEq

def validateAccess (f : ValidateFetch) : ValidateResult :=
  match f with
  | ValidateFetch.thrown => ⟨false, some "Could not connect to auth server"⟩
  | ValidateFetch.httpError => ⟨false, some "Server error"⟩
  | ValidateFetch.ok body => body

def validateAccessLegacy (f : ValidateFetch) : ValidateResult :=
  match f with
  | ValidateFetch.thrown => ⟨false, some "Could not connect to server"⟩
  | ValidateFetch.httpError => ⟨false, some "Server error"⟩
  | ValidateFetch.ok body => body

structure ValidateRequestBody where
  github_id : String
  github_username : Option String
deriving DecidableEq

/-- The request body of the username-carrying variant:
`{ github_id: github_id.toString(), github_username }`. -/
def validateRequestBody (githubId : Nat) (username : Option String) :
    ValidateRequestBody :=
  ⟨toString githubId, username⟩

/-- C9: the function `validateAccess` is total (never throws) and always yields a
`{valid, reason}` record: a thrown fetch/parse error degrades to
`valid: false` with the could-not-connect reason of the respective variant,
a non-success HTTP status to `{valid: false, reason: "Server error"}`, and
only a successful response's parsed body is returned verbatim; the request
body always carries the GitHub id, as a string in the username-carrying
variant. -/
theorem C9_validate_access (body : ValidateResult) (gid : Nat)
    (u : Option String) :
    validateAccess ValidateFetch.thrown
      = ⟨false, some "Could not connect to auth server"⟩ ∧
    validateAccess ValidateFetch.httpError = ⟨false, some "Server error"⟩ ∧
    validateAccess (ValidateFetch.ok body) = body ∧
    validateAccessLegacy ValidateFetch.thrown
      = ⟨false, some "Could not connect to server"⟩ ∧
    validateAccessLegacy ValidateFetch.httpError = ⟨false, some "Server error"⟩ ∧
    validateAccessLegacy (ValidateFetch.ok body) = body ∧
    (validateAccess ValidateFetch.thrown).valid = false ∧
    (validateAccess ValidateFetch.httpError).valid = false ∧
    (validateRequestBody gid u).github_id = toString gid ∧
    (validateRequestBody gid u).github_username = u :=
  ⟨rfl, rfl, rfl, rfl, rfl, rfl, rfl, rfl, rfl, rfl⟩

/-- Witness for C9 at a concrete fetch outcome and GitHub id. -/
theorem C9_validate_access_witness :
    validateAccess ValidateFetch.httpError = ⟨false, some "Server error"⟩ ∧
    (validateRequestBody 12345 (some "octocat")).github_id = "12345" := by
  have h := C9_validate_access ⟨true, none⟩ 12345 (some "octocat")
  exact ⟨h.2.1, by rw [h.2.2.2.2.2.2.2.2.1]; decide⟩

end VF
